import Mathlib

/-!
Shallow embedding of `unstorage-rs` (`src/lib.rs`): an HTTP client for the
unstorage key-value protocol.  The client holds a base URL and default
headers; every operation builds one HTTP request (URL, method, merged
headers, body), sends it through a transport, and interprets the response.

Modelling decisions:
* `HashMap<String, String>` is modelled as a canonical association list
  (`HMap`) with no duplicate keys when built by `hmInsert`/`hmExtend`;
  `hmInsert` replaces an existing binding (Rust `HashMap::insert`) and
  `hmExtend` folds `hmInsert` over the other map (Rust `Extend::extend`).
* The HTTP transport (isahc `send_async`) is a parameter
  `Transport σ := Request → σ → Option (Response × σ)`; `none` is a
  transport (network) failure, `some` delivers a response.  The state `σ`
  lets a server model thread its store through successive calls.
* External library functions that the code only composes are parameters:
  chrono's `parse_from_rfc2822` composed with `with_timezone(&Utc)` is an
  abstract `parseDate : String → Option Int` (UTC instant), serde's
  generic (de)serialisation is `dec : String → Option α` /
  `enc : α → Option String`.  Rust's `str::parse::<u64>` is implemented
  concretely (`parseU64`).
* `anyhow::Result` errors are the inductive `Err`: `config` for invalid
  header names/values (http crate `HeaderName::from_bytes` /
  `HeaderValue` parse), `network` for transport failure, `decode` /
  `encode` for serde failures.
-/

namespace Unstorage

/-- Association-list model of `HashMap<String, String>`. -/
abbrev HMap := List (String × String)

/-- Map lookup (Rust `HashMap::get`). -/
def hmLookup : HMap → String → Option String
  | [], _ => none
  | (k', v) :: tl, k => if k' = k then some v else hmLookup tl k

/-- Map insert, replacing any existing binding (Rust `HashMap::insert`).
The canonical representative removes old bindings of the key and appends
the new one. -/
def hmInsert : HMap → String → String → HMap
  | [], k, v => [(k, v)]
  | (k', v') :: tl, k, v =>
    if k' = k then hmInsert tl k v else (k', v') :: hmInsert tl k v

/-- Rust `m.extend(ex)` (Rust `Extend::extend`): insert every binding of `ex`
into `m`, the bindings of `ex` replacing those of `m`. -/
def hmExtend (m ex : HMap) : HMap :=
  ex.foldl (fun acc p => hmInsert acc p.1 p.2) m

/-- The keys of a map. -/
def hmKeys (m : HMap) : List String := m.map Prod.fst

/-- Rust `struct UnstorageClient { base_url: String, headers: HashMap<String, String> }` -/
structure UnstorageClient where
  base_url : String
  headers : HMap
deriving DecidableEq

/-- Rust `struct TransactionOptions { headers: Option<HashMap<...>>, ttl: Option<u64> }` -/
structure TransactionOptions where
  headers : Option HMap
  ttl : Option Nat
deriving DecidableEq

/-- Rust `UnstorageClient::new(base_url, headers)`: `headers.unwrap_or_default()`. -/
def UnstorageClient.new (base_url : String) (headers : Option HMap) : UnstorageClient :=
  ⟨base_url, headers.getD []⟩

/-- Rust `UnstorageClient::get_headers`: clone the default headers, insert
`x-ttl` when `topts.ttl` is present, then extend with `topts.headers`
when present. -/
def get_headers (c : UnstorageClient) (topts : Option TransactionOptions) : HMap :=
  match topts with
  | none => c.headers
  | some t =>
    let h1 := match t.ttl with
      | some ttl => hmInsert c.headers "x-ttl" (toString ttl)
      | none => c.headers
    match t.headers with
    | some ex => hmExtend h1 ex
    | none => h1

/-! ### Basic association-list lemmas -/

theorem hmLookup_hmInsert (m : HMap) (k v k' : String) :
    hmLookup (hmInsert m k v) k' = if k' = k then some v else hmLookup m k' := by
  induction m with
  | nil =>
    simp only [hmInsert, hmLookup]
    by_cases h : k' = k
    · simp [h]
    · rw [if_neg (fun hh : k = k' => h hh.symm), if_neg h]
  | cons hd tl ih =>
    obtain ⟨a, b⟩ := hd
    simp only [hmInsert]
    by_cases h1 : a = k
    · rw [if_pos h1, ih]
      by_cases h2 : k' = k
      · simp [h2]
      · simp only [if_neg h2, hmLookup, h1]
        rw [if_neg (fun hh : k = k' => h2 hh.symm)]
    · rw [if_neg h1]
      simp only [hmLookup, ih]
      by_cases h2 : a = k'
      · rw [if_pos h2, if_pos h2, if_neg (fun hh : k' = k => h1 (h2.symm ▸ hh))]
      · rw [if_neg h2, if_neg h2]

theorem hmLookup_eq_none_of_not_mem (m : HMap) (k : String) (h : k ∉ hmKeys m) :
    hmLookup m k = none := by
  induction m with
  | nil => rfl
  | cons hd tl ih =>
    obtain ⟨a, b⟩ := hd
    simp only [hmKeys, List.map_cons, List.mem_cons] at h
    push_neg at h
    simp only [hmLookup]
    rw [if_neg (fun hh : a = k => h.1 hh.symm)]
    exact ih (by simpa [hmKeys] using h.2)

theorem hmExtend_cons (m : HMap) (p : String × String) (tl : HMap) :
    hmExtend m (p :: tl) = hmExtend (hmInsert m p.1 p.2) tl := rfl

/-- Lookup through `extend`: the extending map wins, falling back to the
base map.  Requires the extending map to have no duplicate keys, which
holds for any map coming from a Rust `HashMap`. -/
theorem hmLookup_hmExtend (ex : HMap) (hnd : (hmKeys ex).Nodup) (m : HMap) (k : String) :
    hmLookup (hmExtend m ex) k = Option.or (hmLookup ex k) (hmLookup m k) := by
  induction ex generalizing m with
  | nil => simp [hmExtend, hmLookup, Option.or]
  | cons hd tl ih =>
    obtain ⟨a, b⟩ := hd
    simp only [hmKeys, List.map_cons, List.nodup_cons] at hnd
    rw [hmExtend_cons, ih (by simpa [hmKeys] using hnd.2)]
    simp only [hmLookup, hmLookup_hmInsert]
    by_cases h : a = k
    · subst h
      rw [if_pos rfl, if_pos rfl,
        hmLookup_eq_none_of_not_mem tl a (by simpa [hmKeys] using hnd.1)]
      simp [Option.or]
    · rw [if_neg h, if_neg (fun hh : k = a => h hh.symm)]

/-! ### HTTP layer: header validation, requests, responses, transport -/

/-- Characters the http crate accepts in a header name
(`HeaderName::from_bytes`): alphanumerics and the RFC 7230 token symbols. -/
def isValidHeaderNameChar (ch : Char) : Bool :=
  ch.isLower || ch.isUpper || ch.isDigit ||
  "!#$%&*+-.^_|~".data.contains ch || ch = Char.ofNat 39 || ch = Char.ofNat 96

/-- Rust `HeaderName::from_bytes` succeeds exactly on nonempty strings of valid
token characters. -/
def isValidHeaderName (s : String) : Bool :=
  !s.data.isEmpty && s.data.all isValidHeaderNameChar

/-- Rust `HeaderValue` parsing (`value.parse()?`) succeeds when every byte is
printable: tab, or at least 32 and not DEL. -/
def isValidHeaderValue (s : String) : Bool :=
  s.data.all (fun ch => ch = Char.ofNat 9 || (32 ≤ ch.toNat && ch.toNat ≠ 127))

/-- Rust `HeaderValue::to_str` succeeds only on visible ASCII (plus space). -/
def headerToStr (v : String) : Option String :=
  if v.data.all (fun ch => 32 ≤ ch.toNat && ch.toNat < 127) then some v else none

/-- ASCII lowercasing of one character, as `HeaderName` normalisation does. -/
def lowerChar (ch : Char) : Char :=
  if ch.isUpper then Char.ofNat (ch.toNat + 32) else ch

/-- ASCII lowercasing of a header name. -/
def lowerStr (s : String) : String := ⟨s.data.map lowerChar⟩

inductive Method where
  | head
  | get
  | put
  | delete
deriving DecidableEq

/-- An outgoing `isahc::Request`, after the builder has set method, URL and
any builder headers and before/after `add_headers_to_request`.  Header
names are stored lowercased, as `HeaderName` normalises them.  Raw bodies
(`Vec<u8>`) are modelled by the same `String` carrier as text bodies. -/
structure Request where
  method : Method
  url : String
  headers : HMap
  body : String
deriving DecidableEq

/-- A received HTTP response: status code, headers and body. -/
structure Response where
  status : Nat
  headers : HMap
  body : String
deriving DecidableEq

/-- Rust `StatusCode::is_success`: 2xx. -/
def is_success (status : Nat) : Bool :=
  200 ≤ status && status ≤ 299

/-- Rust `HeaderMap::get` on a response, with the case-insensitivity of
`HeaderName` (the code queries lowercase literals). -/
def respHeaderGet (r : Response) (name : String) : Option String :=
  hmLookup (r.headers.map (fun p => (lowerStr p.1, p.2))) name

/-- The error kinds an operation can return through `anyhow::Result`. -/
inductive Err where
  | config
  | network
  | decode
  | encode
deriving DecidableEq

/-- The transport (isahc `send_async` plus body read): `none` is a network
failure, `some` delivers the response and the next world state. -/
def Transport (σ : Type) := Request → σ → Option (Response × σ)

/-- The loop body of `add_headers_to_request` (and of the inline loop in
`get_item_raw`): for each pair, `HeaderName::from_bytes(key)?` then
`value.parse()?`, then `headers_mut().insert`, which replaces and stores
the lowercased name. -/
def addHeadersList : HMap → Request → Except Err Request
  | [], req => .ok req
  | (k, v) :: tl, req =>
    if isValidHeaderName k then
      if isValidHeaderValue v then
        addHeadersList tl { req with headers := hmInsert req.headers (lowerStr k) v }
      else .error .config
    else .error .config

/-- Rust `UnstorageClient::add_headers_to_request`. -/
def add_headers_to_request (c : UnstorageClient) (req : Request)
    (topts : Option TransactionOptions) : Except Err Request :=
  addHeadersList (get_headers c topts) req

/-- All merged headers pass name and value validation, so that
`add_headers_to_request` succeeds. -/
def headersOk (c : UnstorageClient) (topts : Option TransactionOptions) : Bool :=
  (get_headers c topts).all (fun p => isValidHeaderName p.1 && isValidHeaderValue p.2)

/-- Rust `str::parse::<u64>`: optional leading plus sign, then one or more
decimal digits, failing on anything else and on overflow past `u64::MAX`. -/
def parseU64 (s : String) : Option Nat :=
  let cs := match s.data with
    | '+' :: rest => rest
    | cs => cs
  if cs = [] then none
  else if cs.all Char.isDigit then
    let n := cs.foldl (fun a c => a * 10 + (c.toNat - 48)) 0
    if n < 2 ^ 64 then some n else none
  else none

/-- Rust `struct Meta { mtime: Option<SystemTime>, ttl: Option<Duration> }`,
with the UTC instant as an abstract `Int` and the duration as seconds. -/
structure Meta where
  mtime : Option Int
  ttl : Option Nat
deriving DecidableEq

/-! ### Request builders

Each operation first builds its request — URL via
`format!("\x7b\x7d/\x7b\x7d", self.base_url, key)` (plus a trailing colon
for `get_keys`/`clear`), builder headers, body — and then merges the
client and transaction headers into it.  These builders are the part of
each operation that runs before the request is sent. -/

def build_has_item (c : UnstorageClient) (key : String)
    (topts : Option TransactionOptions) : Except Err Request :=
  add_headers_to_request c ⟨.head, c.base_url ++ "/" ++ key, [], ""⟩ topts

def build_get_item (c : UnstorageClient) (key : String)
    (topts : Option TransactionOptions) : Except Err Request :=
  add_headers_to_request c ⟨.get, c.base_url ++ "/" ++ key, [], ""⟩ topts

def build_get_item_json (c : UnstorageClient) (key : String)
    (topts : Option TransactionOptions) : Except Err Request :=
  add_headers_to_request c ⟨.get, c.base_url ++ "/" ++ key, [], ""⟩ topts

/-- Rust `get_item_raw` inlines the header loop: it inserts
`accept: application/octet-stream` into the merged map before validating
and adding each pair. -/
def build_get_item_raw (c : UnstorageClient) (key : String)
    (topts : Option TransactionOptions) : Except Err Request :=
  addHeadersList (hmInsert (get_headers c topts) "accept" "application/octet-stream")
    ⟨.get, c.base_url ++ "/" ++ key, [], ""⟩

def build_get_meta (c : UnstorageClient) (key : String)
    (topts : Option TransactionOptions) : Except Err Request :=
  add_headers_to_request c ⟨.head, c.base_url ++ "/" ++ key, [], ""⟩ topts

def build_set_item (c : UnstorageClient) (key value : String)
    (topts : Option TransactionOptions) : Except Err Request :=
  add_headers_to_request c
    ⟨.put, c.base_url ++ "/" ++ key, [("content-type", "application/json")], value⟩ topts

def build_set_item_raw (c : UnstorageClient) (key value : String)
    (topts : Option TransactionOptions) : Except Err Request :=
  add_headers_to_request c
    ⟨.put, c.base_url ++ "/" ++ key, [("content-type", "application/octet-stream")], value⟩ topts

/-- Rust `set_item_json` serialises first (`serde_json::to_string(value)?`),
then builds the `PUT` request with the JSON body. -/
def build_set_item_json {α : Type} (enc : α → Option String) (c : UnstorageClient)
    (key : String) (value : α) (topts : Option TransactionOptions) : Except Err Request :=
  match enc value with
  | none => .error .encode
  | some json_body =>
    add_headers_to_request c
      ⟨.put, c.base_url ++ "/" ++ key, [("content-type", "application/json")], json_body⟩ topts

def build_remove_item (c : UnstorageClient) (key : String)
    (topts : Option TransactionOptions) : Except Err Request :=
  add_headers_to_request c ⟨.delete, c.base_url ++ "/" ++ key, [], ""⟩ topts

def build_get_keys (c : UnstorageClient) (base : String)
    (topts : Option TransactionOptions) : Except Err Request :=
  add_headers_to_request c ⟨.get, c.base_url ++ "/" ++ base ++ ":", [], ""⟩ topts

def build_clear (c : UnstorageClient) (base : String)
    (topts : Option TransactionOptions) : Except Err Request :=
  add_headers_to_request c ⟨.delete, c.base_url ++ "/" ++ base ++ ":", [], ""⟩ topts

/-! ### Operations -/

/-- Rust `request.send_async().await?`: a transport failure becomes an error. -/
def sendVia {σ : Type} (t : Transport σ) (req : Request) (s : σ) :
    Except Err (Response × σ) :=
  match t req s with
  | none => .error .network
  | some rs => .ok rs

/-- Rust `UnstorageClient::has_item`. -/
def has_item {σ : Type} (c : UnstorageClient) (key : String)
    (topts : Option TransactionOptions) (t : Transport σ) (s : σ) :
    Except Err (Bool × σ) := do
  let req ← build_has_item c key topts
  let (resp, s') ← sendVia t req s
  .ok (is_success resp.status, s')

/-- Rust `UnstorageClient::get_item`. -/
def get_item {σ : Type} (c : UnstorageClient) (key : String)
    (topts : Option TransactionOptions) (t : Transport σ) (s : σ) :
    Except Err (Option String × σ) := do
  let req ← build_get_item c key topts
  let (resp, s') ← sendVia t req s
  if is_success resp.status then .ok (some resp.body, s')
  else .ok (none, s')

/-- Rust `UnstorageClient::get_item_json::<T>`, with serde's deserialiser for
`T` abstracted as `dec`. -/
def get_item_json {σ α : Type} (dec : String → Option α) (c : UnstorageClient)
    (key : String) (topts : Option TransactionOptions) (t : Transport σ) (s : σ) :
    Except Err (Option α × σ) := do
  let req ← build_get_item_json c key topts
  let (resp, s') ← sendVia t req s
  if is_success resp.status then
    match dec resp.body with
    | some v => .ok (some v, s')
    | none => .error .decode
  else .ok (none, s')

/-- Rust `UnstorageClient::get_item_raw`; the `Vec<u8>` result is the response
body in the same carrier. -/
def get_item_raw {σ : Type} (c : UnstorageClient) (key : String)
    (topts : Option TransactionOptions) (t : Transport σ) (s : σ) :
    Except Err (Option String × σ) := do
  let req ← build_get_item_raw c key topts
  let (resp, s') ← sendVia t req s
  if is_success resp.status then .ok (some resp.body, s')
  else .ok (none, s')

/-- Rust `UnstorageClient::get_meta`: on a 2xx response, `mtime` is the
`last-modified` header put through `to_str`, chrono's RFC 2822 parse and
the UTC conversion (abstracted as `parseDate`), and `ttl` is the `x-ttl`
header put through `to_str` and `str::parse::<u64>`. -/
def get_meta {σ : Type} (parseDate : String → Option Int) (c : UnstorageClient)
    (key : String) (topts : Option TransactionOptions) (t : Transport σ) (s : σ) :
    Except Err (Option Meta × σ) := do
  let req ← build_get_meta c key topts
  let (resp, s') ← sendVia t req s
  if is_success resp.status then
    let mtime := ((respHeaderGet resp "last-modified").bind headerToStr).bind parseDate
    let ttl := ((respHeaderGet resp "x-ttl").bind headerToStr).bind parseU64
    .ok (some ⟨mtime, ttl⟩, s')
  else .ok (none, s')

/-- Rust `UnstorageClient::set_item`: the response is ignored
(`let _response = ...`). -/
def set_item {σ : Type} (c : UnstorageClient) (key value : String)
    (topts : Option TransactionOptions) (t : Transport σ) (s : σ) :
    Except Err (Unit × σ) := do
  let req ← build_set_item c key value topts
  let (_resp, s') ← sendVia t req s
  .ok ((), s')

/-- Rust `UnstorageClient::set_item_raw`. -/
def set_item_raw {σ : Type} (c : UnstorageClient) (key value : String)
    (topts : Option TransactionOptions) (t : Transport σ) (s : σ) :
    Except Err (Unit × σ) := do
  let req ← build_set_item_raw c key value topts
  let (_resp, s') ← sendVia t req s
  .ok ((), s')

/-- Rust `UnstorageClient::set_item_json::<T>`, with serde's serialiser for `T`
abstracted as `enc`. -/
def set_item_json {σ α : Type} (enc : α → Option String) (c : UnstorageClient)
    (key : String) (value : α) (topts : Option TransactionOptions)
    (t : Transport σ) (s : σ) : Except Err (Unit × σ) := do
  let req ← build_set_item_json enc c key value topts
  let (_resp, s') ← sendVia t req s
  .ok ((), s')

/-- Rust `UnstorageClient::remove_item`. -/
def remove_item {σ : Type} (c : UnstorageClient) (key : String)
    (topts : Option TransactionOptions) (t : Transport σ) (s : σ) :
    Except Err (Unit × σ) := do
  let req ← build_remove_item c key topts
  let (_resp, s') ← sendVia t req s
  .ok ((), s')

/-- Rust `UnstorageClient::get_keys`, with serde's `Vec<String>` deserialiser
abstracted as `decKeys`. -/
def get_keys {σ : Type} (decKeys : String → Option (List String)) (c : UnstorageClient)
    (base : String) (topts : Option TransactionOptions) (t : Transport σ) (s : σ) :
    Except Err (Option (List String) × σ) := do
  let req ← build_get_keys c base topts
  let (resp, s') ← sendVia t req s
  if is_success resp.status then
    match decKeys resp.body with
    | some keys => .ok (some keys, s')
    | none => .error .decode
  else .ok (none, s')

/-- Rust `UnstorageClient::clear`. -/
def clear {σ : Type} (c : UnstorageClient) (base : String)
    (topts : Option TransactionOptions) (t : Transport σ) (s : σ) :
    Except Err (Unit × σ) := do
  let req ← build_clear c base topts
  let (_resp, s') ← sendVia t req s
  .ok ((), s')

/-! ### A conforming server, and threading whole operations -/

/-- Server state: stored bodies keyed by request path. -/
abbrev Store := HMap

/-- Modelled from the spec: the unstorage server is an external
collaborator (the spec's §1 non-goal "the server-side implementation of
the storage protocol itself").  A conforming server stores the body of a
`PUT` under the request URL, answers `GET`/`HEAD` with 200 and the stored
body when the URL is bound and with 404 otherwise, and removes the
binding on `DELETE`. -/
def serverTransport : Transport Store := fun req store =>
  match req.method with
  | .put => some (⟨200, [], ""⟩, hmInsert store req.url req.body)
  | .get =>
    match hmLookup store req.url with
    | some v => some (⟨200, [], v⟩, store)
    | none => some (⟨404, [], ""⟩, store)
  | .head =>
    match hmLookup store req.url with
    | some _ => some (⟨200, [], ""⟩, store)
    | none => some (⟨404, [], ""⟩, store)
  | .delete => some (⟨204, [], ""⟩, store.filter (fun p => p.1 != req.url))

/-- One call to any of the client's public operations, with its arguments
(the JSON payload specialised to the `String` carrier). -/
inductive OpCall where
  | opHasItem (key : String) (topts : Option TransactionOptions)
  | opGetItem (key : String) (topts : Option TransactionOptions)
  | opGetItemJson (key : String) (topts : Option TransactionOptions)
  | opGetItemRaw (key : String) (topts : Option TransactionOptions)
  | opGetMeta (key : String) (topts : Option TransactionOptions)
  | opSetItem (key value : String) (topts : Option TransactionOptions)
  | opSetItemRaw (key value : String) (topts : Option TransactionOptions)
  | opSetItemJson (key value : String) (topts : Option TransactionOptions)
  | opRemoveItem (key : String) (topts : Option TransactionOptions)
  | opGetKeys (base : String) (topts : Option TransactionOptions)
  | opClear (base : String) (topts : Option TransactionOptions)

/-- The result of an operation, injected into one sum type. -/
inductive OpResult where
  | boolR (b : Bool)
  | strR (v : Option String)
  | metaR (m : Option Meta)
  | keysR (ks : Option (List String))
  | unitR
deriving DecidableEq

/-- Dispatch one operation call and pair its outcome with the client
visible afterwards.  Every method of the source takes `&self` (a shared
borrow) and `get_headers` clones `self.headers` before inserting into the
copy, so the client after the call is the client that was passed in; this
definition records that post-call client per operation. -/
def runOp {σ : Type} (dec enc : String → Option String) (parseDate : String → Option Int)
    (decKeys : String → Option (List String)) (c : UnstorageClient) (op : OpCall)
    (t : Transport σ) (s : σ) : Except Err (OpResult × σ) × UnstorageClient :=
  match op with
  | .opHasItem k topts => ((has_item c k topts t s).map (fun p => (.boolR p.1, p.2)), c)
  | .opGetItem k topts => ((get_item c k topts t s).map (fun p => (.strR p.1, p.2)), c)
  | .opGetItemJson k topts =>
    ((get_item_json dec c k topts t s).map (fun p => (.strR p.1, p.2)), c)
  | .opGetItemRaw k topts => ((get_item_raw c k topts t s).map (fun p => (.strR p.1, p.2)), c)
  | .opGetMeta k topts => ((get_meta parseDate c k topts t s).map (fun p => (.metaR p.1, p.2)), c)
  | .opSetItem k v topts => ((set_item c k v topts t s).map (fun p => (.unitR, p.2)), c)
  | .opSetItemRaw k v topts => ((set_item_raw c k v topts t s).map (fun p => (.unitR, p.2)), c)
  | .opSetItemJson k v topts =>
    ((set_item_json enc c k v topts t s).map (fun p => (.unitR, p.2)), c)
  | .opRemoveItem k topts => ((remove_item c k topts t s).map (fun p => (.unitR, p.2)), c)
  | .opGetKeys b topts => ((get_keys decKeys c b topts t s).map (fun p => (.keysR p.1, p.2)), c)
  | .opClear b topts => ((clear c b topts t s).map (fun p => (.unitR, p.2)), c)

/-! ### Lemmas about header merging into a request -/

/-- The headers of a request after the insertion loop has processed `hs`. -/
def appliedHeaders (hs : HMap) (h0 : HMap) : HMap :=
  hs.foldl (fun acc p => hmInsert acc (lowerStr p.1) p.2) h0

/-- When every pair passes validation, the insertion loop succeeds and
only the headers of the request change. -/
theorem addHeadersList_ok (hs : HMap) (req : Request)
    (hall : hs.all (fun p => isValidHeaderName p.1 && isValidHeaderValue p.2) = true) :
    addHeadersList hs req = .ok ⟨req.method, req.url, appliedHeaders hs req.headers, req.body⟩ := by
  induction hs generalizing req with
  | nil => rfl
  | cons hd tl ih =>
    obtain ⟨k, v⟩ := hd
    simp only [List.all_cons, Bool.and_eq_true] at hall
    simp only [addHeadersList, if_pos hall.1.1, if_pos hall.1.2]
    rw [ih _ hall.2]
    rfl

/-- When some pair has an invalid name, the insertion loop fails with the
configuration error (it can fail no other way than on validation). -/
theorem addHeadersList_error (hs : HMap) (req : Request)
    (h : ∃ p ∈ hs, isValidHeaderName p.1 = false) :
    addHeadersList hs req = .error .config := by
  induction hs generalizing req with
  | nil => simp at h
  | cons hd tl ih =>
    obtain ⟨k, v⟩ := hd
    obtain ⟨p, hp, hbad⟩ := h
    simp only [List.mem_cons] at hp
    simp only [addHeadersList]
    rcases hp with hp | hp
    · rw [hp] at hbad
      simp only [hbad]
      rfl
    · by_cases h1 : isValidHeaderName k
      · by_cases h2 : isValidHeaderValue v
        · rw [if_pos h1, if_pos h2]
          exact ih _ ⟨p, hp, hbad⟩
        · rw [if_pos h1, if_neg h2]
      · rw [if_neg h1]

/-- Inserting a valid pair preserves all-pairs validity. -/
theorem all_hmInsert (P : String × String → Bool) (m : HMap) (k v : String)
    (hm : m.all P = true) (hkv : P (k, v) = true) : (hmInsert m k v).all P = true := by
  induction m with
  | nil => simpa [hmInsert]
  | cons hd tl ih =>
    obtain ⟨a, b⟩ := hd
    simp only [List.all_cons, Bool.and_eq_true] at hm
    simp only [hmInsert]
    by_cases h : a = k
    · rw [if_pos h]
      exact ih hm.2
    · rw [if_neg h]
      simp only [List.all_cons, Bool.and_eq_true]
      exact ⟨hm.1, ih hm.2⟩

/-- A binding with a different key survives `hmInsert`. -/
theorem mem_hmInsert_of_ne (m : HMap) (p : String × String) (k v : String)
    (hp : p ∈ m) (hne : p.1 ≠ k) : p ∈ hmInsert m k v := by
  induction m with
  | nil => simp at hp
  | cons hd tl ih =>
    obtain ⟨a, b⟩ := hd
    simp only [List.mem_cons] at hp
    simp only [hmInsert]
    by_cases h : a = k
    · rw [if_pos h]
      rcases hp with hp | hp
      · exact absurd (hp ▸ h) hne
      · exact ih hp
    · rw [if_neg h]
      rcases hp with hp | hp
      · rw [hp]
        exact List.mem_cons_self _ _
      · exact List.mem_cons_of_mem _ (ih hp)

theorem build_has_item_ok (c : UnstorageClient) (key : String)
    (topts : Option TransactionOptions) (hok : headersOk c topts = true) :
    build_has_item c key topts =
      .ok ⟨.head, c.base_url ++ "/" ++ key, appliedHeaders (get_headers c topts) [], ""⟩ :=
  addHeadersList_ok _ _ hok

theorem build_get_item_ok (c : UnstorageClient) (key : String)
    (topts : Option TransactionOptions) (hok : headersOk c topts = true) :
    build_get_item c key topts =
      .ok ⟨.get, c.base_url ++ "/" ++ key, appliedHeaders (get_headers c topts) [], ""⟩ :=
  addHeadersList_ok _ _ hok

theorem build_get_item_json_ok (c : UnstorageClient) (key : String)
    (topts : Option TransactionOptions) (hok : headersOk c topts = true) :
    build_get_item_json c key topts =
      .ok ⟨.get, c.base_url ++ "/" ++ key, appliedHeaders (get_headers c topts) [], ""⟩ :=
  addHeadersList_ok _ _ hok

theorem accept_pair_valid :
    (isValidHeaderName "accept" && isValidHeaderValue "application/octet-stream") = true := by
  decide

theorem build_get_item_raw_ok (c : UnstorageClient) (key : String)
    (topts : Option TransactionOptions) (hok : headersOk c topts = true) :
    build_get_item_raw c key topts =
      .ok ⟨.get, c.base_url ++ "/" ++ key,
        appliedHeaders (hmInsert (get_headers c topts) "accept" "application/octet-stream") [],
        ""⟩ :=
  addHeadersList_ok _ _ (all_hmInsert _ _ _ _ hok accept_pair_valid)

theorem build_get_meta_ok (c : UnstorageClient) (key : String)
    (topts : Option TransactionOptions) (hok : headersOk c topts = true) :
    build_get_meta c key topts =
      .ok ⟨.head, c.base_url ++ "/" ++ key, appliedHeaders (get_headers c topts) [], ""⟩ :=
  addHeadersList_ok _ _ hok

theorem build_set_item_ok (c : UnstorageClient) (key value : String)
    (topts : Option TransactionOptions) (hok : headersOk c topts = true) :
    build_set_item c key value topts =
      .ok ⟨.put, c.base_url ++ "/" ++ key,
        appliedHeaders (get_headers c topts) [("content-type", "application/json")], value⟩ :=
  addHeadersList_ok _ _ hok

theorem build_set_item_raw_ok (c : UnstorageClient) (key value : String)
    (topts : Option TransactionOptions) (hok : headersOk c topts = true) :
    build_set_item_raw c key value topts =
      .ok ⟨.put, c.base_url ++ "/" ++ key,
        appliedHeaders (get_headers c topts) [("content-type", "application/octet-stream")],
        value⟩ :=
  addHeadersList_ok _ _ hok

theorem build_set_item_json_ok {α : Type} (enc : α → Option String) (c : UnstorageClient)
    (key : String) (value : α) (topts : Option TransactionOptions) (b : String)
    (henc : enc value = some b) (hok : headersOk c topts = true) :
    build_set_item_json enc c key value topts =
      .ok ⟨.put, c.base_url ++ "/" ++ key,
        appliedHeaders (get_headers c topts) [("content-type", "application/json")], b⟩ := by
  simp only [build_set_item_json, henc]
  exact addHeadersList_ok _ _ hok

theorem build_remove_item_ok (c : UnstorageClient) (key : String)
    (topts : Option TransactionOptions) (hok : headersOk c topts = true) :
    build_remove_item c key topts =
      .ok ⟨.delete, c.base_url ++ "/" ++ key, appliedHeaders (get_headers c topts) [], ""⟩ :=
  addHeadersList_ok _ _ hok

theorem build_get_keys_ok (c : UnstorageClient) (base : String)
    (topts : Option TransactionOptions) (hok : headersOk c topts = true) :
    build_get_keys c base topts =
      .ok ⟨.get, c.base_url ++ "/" ++ base ++ ":", appliedHeaders (get_headers c topts) [], ""⟩ :=
  addHeadersList_ok _ _ hok

theorem build_clear_ok (c : UnstorageClient) (base : String)
    (topts : Option TransactionOptions) (hok : headersOk c topts = true) :
    build_clear c base topts =
      .ok ⟨.delete, c.base_url ++ "/" ++ base ++ ":", appliedHeaders (get_headers c topts) [], ""⟩ :=
  addHeadersList_ok _ _ hok

/-! ### Operation behaviour as a function of the transport -/

theorem has_item_eq {σ : Type} (c : UnstorageClient) (key : String)
    (topts : Option TransactionOptions) (t : Transport σ) (s : σ)
    (hok : headersOk c topts = true) :
    has_item c key topts t s =
      match t ⟨.head, c.base_url ++ "/" ++ key, appliedHeaders (get_headers c topts) [], ""⟩ s with
      | none => .error .network
      | some (resp, s') => .ok (is_success resp.status, s') := by
  unfold has_item
  rw [build_has_item_ok c key topts hok]
  cases ht : t ⟨.head, c.base_url ++ "/" ++ key, appliedHeaders (get_headers c topts) [], ""⟩ s with
  | none => simp [sendVia, ht, Bind.bind, Except.bind]
  | some rs => simp [sendVia, ht, Bind.bind, Except.bind]

theorem get_item_eq {σ : Type} (c : UnstorageClient) (key : String)
    (topts : Option TransactionOptions) (t : Transport σ) (s : σ)
    (hok : headersOk c topts = true) :
    get_item c key topts t s =
      match t ⟨.get, c.base_url ++ "/" ++ key, appliedHeaders (get_headers c topts) [], ""⟩ s with
      | none => .error .network
      | some (resp, s') =>
        if is_success resp.status then .ok (some resp.body, s') else .ok (none, s') := by
  unfold get_item
  rw [build_get_item_ok c key topts hok]
  cases ht : t ⟨.get, c.base_url ++ "/" ++ key, appliedHeaders (get_headers c topts) [], ""⟩ s with
  | none => simp [sendVia, ht, Bind.bind, Except.bind]
  | some rs => simp [sendVia, ht, Bind.bind, Except.bind]

theorem get_item_json_eq {σ α : Type} (dec : String → Option α) (c : UnstorageClient)
    (key : String) (topts : Option TransactionOptions) (t : Transport σ) (s : σ)
    (hok : headersOk c topts = true) :
    get_item_json dec c key topts t s =
      match t ⟨.get, c.base_url ++ "/" ++ key, appliedHeaders (get_headers c topts) [], ""⟩ s with
      | none => .error .network
      | some (resp, s') =>
        if is_success resp.status then
          match dec resp.body with
          | some v => .ok (some v, s')
          | none => .error .decode
        else .ok (none, s') := by
  unfold get_item_json
  rw [build_get_item_json_ok c key topts hok]
  cases ht : t ⟨.get, c.base_url ++ "/" ++ key, appliedHeaders (get_headers c topts) [], ""⟩ s with
  | none => simp [sendVia, ht, Bind.bind, Except.bind]
  | some rs => simp [sendVia, ht, Bind.bind, Except.bind]

theorem get_item_raw_eq {σ : Type} (c : UnstorageClient) (key : String)
    (topts : Option TransactionOptions) (t : Transport σ) (s : σ)
    (hok : headersOk c topts = true) :
    get_item_raw c key topts t s =
      match t ⟨.get, c.base_url ++ "/" ++ key,
          appliedHeaders (hmInsert (get_headers c topts) "accept" "application/octet-stream") [],
          ""⟩ s with
      | none => .error .network
      | some (resp, s') =>
        if is_success resp.status then .ok (some resp.body, s') else .ok (none, s') := by
  unfold get_item_raw
  rw [build_get_item_raw_ok c key topts hok]
  cases ht : t ⟨.get, c.base_url ++ "/" ++ key,
      appliedHeaders (hmInsert (get_headers c topts) "accept" "application/octet-stream") [],
      ""⟩ s with
  | none => simp [sendVia, ht, Bind.bind, Except.bind]
  | some rs => simp [sendVia, ht, Bind.bind, Except.bind]

theorem get_meta_eq {σ : Type} (parseDate : String → Option Int) (c : UnstorageClient)
    (key : String) (topts : Option TransactionOptions) (t : Transport σ) (s : σ)
    (hok : headersOk c topts = true) :
    get_meta parseDate c key topts t s =
      match t ⟨.head, c.base_url ++ "/" ++ key, appliedHeaders (get_headers c topts) [], ""⟩ s with
      | none => .error .network
      | some (resp, s') =>
        if is_success resp.status then
          .ok (some ⟨((respHeaderGet resp "last-modified").bind headerToStr).bind parseDate,
            ((respHeaderGet resp "x-ttl").bind headerToStr).bind parseU64⟩, s')
        else .ok (none, s') := by
  unfold get_meta
  rw [build_get_meta_ok c key topts hok]
  cases ht : t ⟨.head, c.base_url ++ "/" ++ key, appliedHeaders (get_headers c topts) [], ""⟩ s with
  | none => simp [sendVia, ht, Bind.bind, Except.bind]
  | some rs => simp [sendVia, ht, Bind.bind, Except.bind]

theorem set_item_eq {σ : Type} (c : UnstorageClient) (key value : String)
    (topts : Option TransactionOptions) (t : Transport σ) (s : σ)
    (hok : headersOk c topts = true) :
    set_item c key value topts t s =
      match t ⟨.put, c.base_url ++ "/" ++ key,
          appliedHeaders (get_headers c topts) [("content-type", "application/json")],
          value⟩ s with
      | none => .error .network
      | some (_resp, s') => .ok ((), s') := by
  unfold set_item
  rw [build_set_item_ok c key value topts hok]
  cases ht : t ⟨.put, c.base_url ++ "/" ++ key,
      appliedHeaders (get_headers c topts) [("content-type", "application/json")], value⟩ s with
  | none => simp [sendVia, ht, Bind.bind, Except.bind]
  | some rs => simp [sendVia, ht, Bind.bind, Except.bind]

theorem set_item_raw_eq {σ : Type} (c : UnstorageClient) (key value : String)
    (topts : Option TransactionOptions) (t : Transport σ) (s : σ)
    (hok : headersOk c topts = true) :
    set_item_raw c key value topts t s =
      match t ⟨.put, c.base_url ++ "/" ++ key,
          appliedHeaders (get_headers c topts) [("content-type", "application/octet-stream")],
          value⟩ s with
      | none => .error .network
      | some (_resp, s') => .ok ((), s') := by
  unfold set_item_raw
  rw [build_set_item_raw_ok c key value topts hok]
  cases ht : t ⟨.put, c.base_url ++ "/" ++ key,
      appliedHeaders (get_headers c topts) [("content-type", "application/octet-stream")],
      value⟩ s with
  | none => simp [sendVia, ht, Bind.bind, Except.bind]
  | some rs => simp [sendVia, ht, Bind.bind, Except.bind]

theorem set_item_json_eq {σ α : Type} (enc : α → Option String) (c : UnstorageClient)
    (key : String) (value : α) (topts : Option TransactionOptions) (t : Transport σ) (s : σ)
    (b : String) (henc : enc value = some b) (hok : headersOk c topts = true) :
    set_item_json enc c key value topts t s =
      match t ⟨.put, c.base_url ++ "/" ++ key,
          appliedHeaders (get_headers c topts) [("content-type", "application/json")], b⟩ s with
      | none => .error .network
      | some (_resp, s') => .ok ((), s') := by
  unfold set_item_json
  rw [build_set_item_json_ok enc c key value topts b henc hok]
  cases ht : t ⟨.put, c.base_url ++ "/" ++ key,
      appliedHeaders (get_headers c topts) [("content-type", "application/json")], b⟩ s with
  | none => simp [sendVia, ht, Bind.bind, Except.bind]
  | some rs => simp [sendVia, ht, Bind.bind, Except.bind]

theorem remove_item_eq {σ : Type} (c : UnstorageClient) (key : String)
    (topts : Option TransactionOptions) (t : Transport σ) (s : σ)
    (hok : headersOk c topts = true) :
    remove_item c key topts t s =
      match t ⟨.delete, c.base_url ++ "/" ++ key, appliedHeaders (get_headers c topts) [], ""⟩ s with
      | none => .error .network
      | some (_resp, s') => .ok ((), s') := by
  unfold remove_item
  rw [build_remove_item_ok c key topts hok]
  cases ht : t ⟨.delete, c.base_url ++ "/" ++ key, appliedHeaders (get_headers c topts) [], ""⟩ s with
  | none => simp [sendVia, ht, Bind.bind, Except.bind]
  | some rs => simp [sendVia, ht, Bind.bind, Except.bind]

theorem get_keys_eq {σ : Type} (decKeys : String → Option (List String)) (c : UnstorageClient)
    (base : String) (topts : Option TransactionOptions) (t : Transport σ) (s : σ)
    (hok : headersOk c topts = true) :
    get_keys decKeys c base topts t s =
      match t ⟨.get, c.base_url ++ "/" ++ base ++ ":",
          appliedHeaders (get_headers c topts) [], ""⟩ s with
      | none => .error .network
      | some (resp, s') =>
        if is_success resp.status then
          match decKeys resp.body with
          | some keys => .ok (some keys, s')
          | none => .error .decode
        else .ok (none, s') := by
  unfold get_keys
  rw [build_get_keys_ok c base topts hok]
  cases ht : t ⟨.get, c.base_url ++ "/" ++ base ++ ":",
      appliedHeaders (get_headers c topts) [], ""⟩ s with
  | none => simp [sendVia, ht, Bind.bind, Except.bind]
  | some rs => simp [sendVia, ht, Bind.bind, Except.bind]

theorem clear_eq {σ : Type} (c : UnstorageClient) (base : String)
    (topts : Option TransactionOptions) (t : Transport σ) (s : σ)
    (hok : headersOk c topts = true) :
    clear c base topts t s =
      match t ⟨.delete, c.base_url ++ "/" ++ base ++ ":",
          appliedHeaders (get_headers c topts) [], ""⟩ s with
      | none => .error .network
      | some (_resp, s') => .ok ((), s') := by
  unfold clear
  rw [build_clear_ok c base topts hok]
  cases ht : t ⟨.delete, c.base_url ++ "/" ++ base ++ ":",
      appliedHeaders (get_headers c topts) [], ""⟩ s with
  | none => simp [sendVia, ht, Bind.bind, Except.bind]
  | some rs => simp [sendVia, ht, Bind.bind, Except.bind]

/-! ### Claims -/

/-- C1: every read-style operation (`get_item`, `get_item_json`,
`get_item_raw`, `get_meta`, `get_keys`) turns a received non-2xx response
into the successful empty result `none`, never an error, while a failed
request (transport failure) returns an error — so callers can distinguish
"key absent" from "request failed". -/
theorem read_ops_non2xx_is_absent_not_error {σ α : Type}
    (c : UnstorageClient) (key base : String) (topts : Option TransactionOptions)
    (dec : String → Option α) (parseDate : String → Option Int)
    (decKeys : String → Option (List String)) (resp : Response) (s : σ)
    (hok : headersOk c topts = true) (hst : is_success resp.status = false) :
    get_item c key topts (fun _ s => some (resp, s)) s = .ok (none, s) ∧
    get_item_json dec c key topts (fun _ s => some (resp, s)) s = .ok (none, s) ∧
    get_item_raw c key topts (fun _ s => some (resp, s)) s = .ok (none, s) ∧
    get_meta parseDate c key topts (fun _ s => some (resp, s)) s = .ok (none, s) ∧
    get_keys decKeys c base topts (fun _ s => some (resp, s)) s = .ok (none, s) ∧
    get_item c key topts (fun _ _ => none) s = .error .network ∧
    get_item_json dec c key topts (fun _ _ => none) s = .error .network ∧
    get_item_raw c key topts (fun _ _ => none) s = .error .network ∧
    get_meta parseDate c key topts (fun _ _ => none) s = .error .network ∧
    get_keys decKeys c base topts (fun _ _ => none) s = .error .network := by
  refine ⟨?_, ?_, ?_, ?_, ?_, ?_, ?_, ?_, ?_, ?_⟩
  · rw [get_item_eq c key topts _ s hok]
    simp [hst]
  · rw [get_item_json_eq dec c key topts _ s hok]
    simp [hst]
  · rw [get_item_raw_eq c key topts _ s hok]
    simp [hst]
  · rw [get_meta_eq parseDate c key topts _ s hok]
    simp [hst]
  · rw [get_keys_eq decKeys c base topts _ s hok]
    simp [hst]
  · rw [get_item_eq c key topts _ s hok]
  · rw [get_item_json_eq dec c key topts _ s hok]
  · rw [get_item_raw_eq c key topts _ s hok]
  · rw [get_meta_eq parseDate c key topts _ s hok]
  · rw [get_keys_eq decKeys c base topts _ s hok]

/-- Witness for C1 at a concrete client, key and 404 response. -/
theorem read_ops_non2xx_is_absent_not_error_witness :
    headersOk ⟨"http://localhost:3000", []⟩ none = true ∧
    is_success 404 = false ∧
    (get_item ⟨"http://localhost:3000", []⟩ "test" none
        (fun _ (s : Unit) => some (⟨404, [], ""⟩, s)) () = .ok (none, ()) ∧
      get_item_json (fun (_ : String) => (none : Option String))
        ⟨"http://localhost:3000", []⟩ "test" none
        (fun _ (s : Unit) => some (⟨404, [], ""⟩, s)) () = .ok (none, ()) ∧
      get_item_raw ⟨"http://localhost:3000", []⟩ "test" none
        (fun _ (s : Unit) => some (⟨404, [], ""⟩, s)) () = .ok (none, ()) ∧
      get_meta (fun _ => none) ⟨"http://localhost:3000", []⟩ "test" none
        (fun _ (s : Unit) => some (⟨404, [], ""⟩, s)) () = .ok (none, ()) ∧
      get_keys (fun _ => none) ⟨"http://localhost:3000", []⟩ "ns" none
        (fun _ (s : Unit) => some (⟨404, [], ""⟩, s)) () = .ok (none, ()) ∧
      get_item ⟨"http://localhost:3000", []⟩ "test" none
        (fun _ (_ : Unit) => none) () = .error .network ∧
      get_item_json (fun (_ : String) => (none : Option String))
        ⟨"http://localhost:3000", []⟩ "test" none
        (fun _ (_ : Unit) => none) () = .error .network ∧
      get_item_raw ⟨"http://localhost:3000", []⟩ "test" none
        (fun _ (_ : Unit) => none) () = .error .network ∧
      get_meta (fun _ => none) ⟨"http://localhost:3000", []⟩ "test" none
        (fun _ (_ : Unit) => none) () = .error .network ∧
      get_keys (fun _ => none) ⟨"http://localhost:3000", []⟩ "ns" none
        (fun _ (_ : Unit) => none) () = .error .network) :=
  ⟨by decide, by decide,
    read_ops_non2xx_is_absent_not_error ⟨"http://localhost:3000", []⟩ "test" "ns" none
      (fun _ => none) (fun _ => none) (fun _ => none) ⟨404, [], ""⟩ ()
      (by decide) (by decide)⟩

/-- C2: the effective header map starts from the default headers, derives
`x-ttl` from `topts.ttl`, then overlays `topts.headers` with the later
value winning: a key bound by the transaction headers resolves to the
transaction's value (even when the defaults bind it too), and a key they
do not bind (other than the derived `x-ttl`) resolves to the default. -/
theorem effective_headers_transaction_wins (c : UnstorageClient) (ex : HMap)
    (ttlOpt : Option Nat) (k : String) (hnd : (hmKeys ex).Nodup) :
    (∀ v, hmLookup ex k = some v →
      hmLookup (get_headers c (some ⟨some ex, ttlOpt⟩)) k = some v) ∧
    (hmLookup ex k = none → k ≠ "x-ttl" →
      hmLookup (get_headers c (some ⟨some ex, ttlOpt⟩)) k = hmLookup c.headers k) := by
  constructor
  · intro v hv
    cases ttlOpt with
    | none =>
      show hmLookup (hmExtend c.headers ex) k = some v
      rw [hmLookup_hmExtend ex hnd _ k, hv]
      rfl
    | some n =>
      show hmLookup (hmExtend (hmInsert c.headers "x-ttl" (toString n)) ex) k = some v
      rw [hmLookup_hmExtend ex hnd _ k, hv]
      rfl
  · intro hnone hk
    cases ttlOpt with
    | none =>
      show hmLookup (hmExtend c.headers ex) k = hmLookup c.headers k
      rw [hmLookup_hmExtend ex hnd _ k, hnone]
      rfl
    | some n =>
      show hmLookup (hmExtend (hmInsert c.headers "x-ttl" (toString n)) ex) k
        = hmLookup c.headers k
      rw [hmLookup_hmExtend ex hnd _ k, hnone, Option.none_or, hmLookup_hmInsert,
        if_neg hk]

/-- Witness for C2: the transaction's binding of `authorization` overrides
the client default. -/
theorem effective_headers_transaction_wins_witness :
    ([("authorization", "transaction")].map Prod.fst).Nodup ∧
    hmLookup [("authorization", "transaction")] "authorization" = some "transaction" ∧
    hmLookup
      (get_headers ⟨"http://localhost:3000", [("authorization", "default")]⟩
        (some ⟨some [("authorization", "transaction")], some 60⟩))
      "authorization" = some "transaction" :=
  ⟨by decide, by decide,
    (effective_headers_transaction_wins ⟨"http://localhost:3000", [("authorization", "default")]⟩
      [("authorization", "transaction")] (some 60) "authorization" (by decide)).1
      "transaction" (by decide)⟩

/-- C4: against a conforming server, `set_item(k, v)` followed by
`get_item(k)` returns `some v`, and `set_item_json(k, r)` followed by
`get_item_json(k)` returns `some r` whenever serde round-trips `r`
(`dec (enc r) = some r`). -/
theorem set_get_roundtrip {α : Type} (c : UnstorageClient) (k v : String)
    (topts : Option TransactionOptions) (store : Store)
    (enc : α → Option String) (dec : String → Option α) (r : α) (b : String)
    (henc : enc r = some b) (hdec : dec b = some r)
    (hok : headersOk c topts = true) :
    (set_item c k v topts serverTransport store
        = .ok ((), hmInsert store (c.base_url ++ "/" ++ k) v) ∧
      get_item c k topts serverTransport (hmInsert store (c.base_url ++ "/" ++ k) v)
        = .ok (some v, hmInsert store (c.base_url ++ "/" ++ k) v)) ∧
    (set_item_json enc c k r topts serverTransport store
        = .ok ((), hmInsert store (c.base_url ++ "/" ++ k) b) ∧
      get_item_json dec c k topts serverTransport (hmInsert store (c.base_url ++ "/" ++ k) b)
        = .ok (some r, hmInsert store (c.base_url ++ "/" ++ k) b)) := by
  have hlv : hmLookup (hmInsert store (c.base_url ++ "/" ++ k) v) (c.base_url ++ "/" ++ k)
      = some v := by
    rw [hmLookup_hmInsert, if_pos rfl]
  have hlb : hmLookup (hmInsert store (c.base_url ++ "/" ++ k) b) (c.base_url ++ "/" ++ k)
      = some b := by
    rw [hmLookup_hmInsert, if_pos rfl]
  refine ⟨⟨?_, ?_⟩, ⟨?_, ?_⟩⟩
  · rw [set_item_eq c k v topts serverTransport store hok]
    rfl
  · rw [get_item_eq c k topts serverTransport _ hok]
    simp [serverTransport, hlv, is_success]
  · rw [set_item_json_eq enc c k r topts serverTransport store b henc hok]
    rfl
  · rw [get_item_json_eq dec c k topts serverTransport _ hok]
    simp [serverTransport, hlb, is_success, hdec]

/-- Witness for C4 with the spec's end-to-end example value. -/
theorem set_get_roundtrip_witness :
    (some "Hello" : Option String) = some "Hello" ∧
    (set_item ⟨"http://localhost:3000", []⟩ "test" "Hello, World!" none serverTransport []
        = .ok ((), hmInsert [] "http://localhost:3000/test" "Hello, World!") ∧
      get_item ⟨"http://localhost:3000", []⟩ "test" none serverTransport
          (hmInsert [] "http://localhost:3000/test" "Hello, World!")
        = .ok (some "Hello, World!", hmInsert [] "http://localhost:3000/test" "Hello, World!")) ∧
    (set_item_json (fun s => some s) ⟨"http://localhost:3000", []⟩ "test" "Hello" none
          serverTransport []
        = .ok ((), hmInsert [] "http://localhost:3000/test" "Hello") ∧
      get_item_json (fun s => some s) ⟨"http://localhost:3000", []⟩ "test" none serverTransport
          (hmInsert [] "http://localhost:3000/test" "Hello")
        = .ok (some "Hello", hmInsert [] "http://localhost:3000/test" "Hello")) :=
  ⟨rfl,
    set_get_roundtrip ⟨"http://localhost:3000", []⟩ "test" "Hello, World!" none []
      (fun s => some s) (fun s => some s) "Hello" "Hello" rfl rfl (by decide)⟩

/-- C5: `has_item` builds a `HEAD` request for `base_url + "/" + key`;
on any received response it returns exactly whether the status is 2xx,
and it returns an error only when the transport fails. -/
theorem has_item_head_2xx (σ : Type) (c : UnstorageClient) (key : String)
    (topts : Option TransactionOptions) (hok : headersOk c topts = true) :
    ∃ req : Request, req.method = .head ∧ req.url = c.base_url ++ "/" ++ key ∧
      ∀ (t : Transport σ) (s : σ),
        has_item c key topts t s =
          (sendVia t req s).map (fun rs => (is_success rs.1.status, rs.2)) := by
  refine ⟨⟨.head, c.base_url ++ "/" ++ key, appliedHeaders (get_headers c topts) [], ""⟩,
    rfl, rfl, fun t s => ?_⟩
  rw [has_item_eq c key topts t s hok]
  cases ht : t ⟨.head, c.base_url ++ "/" ++ key, appliedHeaders (get_headers c topts) [], ""⟩ s with
  | none => simp [sendVia, ht, Except.map]
  | some rs => simp [sendVia, ht, Except.map]

/-- Witness for C5 at a concrete client and key. -/
theorem has_item_head_2xx_witness :
    ∃ req : Request, req.method = .head ∧ req.url = "http://localhost:3000/test" ∧
      ∀ (t : Transport Unit) (s : Unit),
        has_item ⟨"http://localhost:3000", []⟩ "test" none t s =
          (sendVia t req s).map (fun rs => (is_success rs.1.status, rs.2)) := by
  simpa using has_item_head_2xx Unit ⟨"http://localhost:3000", []⟩ "test" none (by decide)

/-- C6: on a 2xx response, `get_meta` returns `Meta` whose `mtime` is the
`last-modified` header passed through `to_str` and the RFC 2822 → UTC
parse, and whose `ttl` is the `x-ttl` header passed through `to_str` and
`u64` parsing; a missing or unparsable header leaves the field `none`,
and neither condition is an error. -/
theorem get_meta_parses_headers {σ : Type} (parseDate : String → Option Int)
    (c : UnstorageClient) (key : String) (topts : Option TransactionOptions)
    (resp : Response) (s : σ) (hok : headersOk c topts = true)
    (hst : is_success resp.status = true) :
    get_meta parseDate c key topts (fun _ s => some (resp, s)) s =
      .ok (some ⟨((respHeaderGet resp "last-modified").bind headerToStr).bind parseDate,
        ((respHeaderGet resp "x-ttl").bind headerToStr).bind parseU64⟩, s) ∧
    (respHeaderGet resp "last-modified" = none →
      get_meta parseDate c key topts (fun _ s => some (resp, s)) s =
        .ok (some ⟨none, ((respHeaderGet resp "x-ttl").bind headerToStr).bind parseU64⟩, s)) := by
  have h1 : get_meta parseDate c key topts (fun _ s => some (resp, s)) s =
      .ok (some ⟨((respHeaderGet resp "last-modified").bind headerToStr).bind parseDate,
        ((respHeaderGet resp "x-ttl").bind headerToStr).bind parseU64⟩, s) := by
    rw [get_meta_eq parseDate c key topts _ s hok]
    simp [hst]
  exact ⟨h1, fun hm => by rw [h1, hm]; rfl⟩

/-- Witness for C6 with the spec's `Last-Modified` example and `x-ttl: 60`,
at a parser sending that date to a fixed UTC instant. -/
theorem get_meta_parses_headers_witness :
    is_success 200 = true ∧
    get_meta (fun d => if d = "Tue, 01 Jan 2024 00:00:00 GMT" then some 1704067200 else none)
      ⟨"http://localhost:3000", []⟩ "test" none
      (fun _ (s : Unit) =>
        some (⟨200, [("Last-Modified", "Tue, 01 Jan 2024 00:00:00 GMT"), ("x-ttl", "60")], ""⟩, s))
      () = .ok (some ⟨some 1704067200, some 60⟩, ()) := by
  refine ⟨rfl, ?_⟩
  have h := (get_meta_parses_headers
    (fun d => if d = "Tue, 01 Jan 2024 00:00:00 GMT" then some 1704067200 else none)
    ⟨"http://localhost:3000", []⟩ "test" none
    ⟨200, [("Last-Modified", "Tue, 01 Jan 2024 00:00:00 GMT"), ("x-ttl", "60")], ""⟩ ()
    (by decide) (by decide)).1
  rw [h]
  rfl

/-- C7: every single-key operation addresses `base_url + "/" + key`,
while `get_keys` and `clear` address `base_url + "/" + base + ":"`. -/
theorem op_urls {α : Type} (c : UnstorageClient) (k b : String)
    (topts : Option TransactionOptions) (enc : α → Option String) (val : α)
    (encBody v : String) (hok : headersOk c topts = true) (henc : enc val = some encBody) :
    (build_has_item c k topts).map Request.url = .ok (c.base_url ++ "/" ++ k) ∧
    (build_get_item c k topts).map Request.url = .ok (c.base_url ++ "/" ++ k) ∧
    (build_get_item_json c k topts).map Request.url = .ok (c.base_url ++ "/" ++ k) ∧
    (build_get_item_raw c k topts).map Request.url = .ok (c.base_url ++ "/" ++ k) ∧
    (build_get_meta c k topts).map Request.url = .ok (c.base_url ++ "/" ++ k) ∧
    (build_set_item c k v topts).map Request.url = .ok (c.base_url ++ "/" ++ k) ∧
    (build_set_item_raw c k v topts).map Request.url = .ok (c.base_url ++ "/" ++ k) ∧
    (build_set_item_json enc c k val topts).map Request.url = .ok (c.base_url ++ "/" ++ k) ∧
    (build_remove_item c k topts).map Request.url = .ok (c.base_url ++ "/" ++ k) ∧
    (build_get_keys c b topts).map Request.url = .ok (c.base_url ++ "/" ++ b ++ ":") ∧
    (build_clear c b topts).map Request.url = .ok (c.base_url ++ "/" ++ b ++ ":") := by
  refine ⟨?_, ?_, ?_, ?_, ?_, ?_, ?_, ?_, ?_, ?_, ?_⟩
  · rw [build_has_item_ok c k topts hok]
    rfl
  · rw [build_get_item_ok c k topts hok]
    rfl
  · rw [build_get_item_json_ok c k topts hok]
    rfl
  · rw [build_get_item_raw_ok c k topts hok]
    rfl
  · rw [build_get_meta_ok c k topts hok]
    rfl
  · rw [build_set_item_ok c k v topts hok]
    rfl
  · rw [build_set_item_raw_ok c k v topts hok]
    rfl
  · rw [build_set_item_json_ok enc c k val topts encBody henc hok]
    rfl
  · rw [build_remove_item_ok c k topts hok]
    rfl
  · rw [build_get_keys_ok c b topts hok]
    rfl
  · rw [build_clear_ok c b topts hok]
    rfl

/-- Witness for C7 at a concrete client, key and namespace base. -/
theorem op_urls_witness :
    headersOk ⟨"http://h", []⟩ none = true ∧
    ((build_has_item ⟨"http://h", []⟩ "k" none).map Request.url = .ok ("http://h" ++ "/" ++ "k") ∧
      (build_get_item ⟨"http://h", []⟩ "k" none).map Request.url
        = .ok ("http://h" ++ "/" ++ "k") ∧
      (build_get_item_json ⟨"http://h", []⟩ "k" none).map Request.url
        = .ok ("http://h" ++ "/" ++ "k") ∧
      (build_get_item_raw ⟨"http://h", []⟩ "k" none).map Request.url
        = .ok ("http://h" ++ "/" ++ "k") ∧
      (build_get_meta ⟨"http://h", []⟩ "k" none).map Request.url
        = .ok ("http://h" ++ "/" ++ "k") ∧
      (build_set_item ⟨"http://h", []⟩ "k" "v" none).map Request.url
        = .ok ("http://h" ++ "/" ++ "k") ∧
      (build_set_item_raw ⟨"http://h", []⟩ "k" "v" none).map Request.url
        = .ok ("http://h" ++ "/" ++ "k") ∧
      (build_set_item_json (fun s => some s) ⟨"http://h", []⟩ "k" "v" none).map Request.url
        = .ok ("http://h" ++ "/" ++ "k") ∧
      (build_remove_item ⟨"http://h", []⟩ "k" none).map Request.url
        = .ok ("http://h" ++ "/" ++ "k") ∧
      (build_get_keys ⟨"http://h", []⟩ "ns" none).map Request.url
        = .ok ("http://h" ++ "/" ++ "ns" ++ ":") ∧
      (build_clear ⟨"http://h", []⟩ "ns" none).map Request.url
        = .ok ("http://h" ++ "/" ++ "ns" ++ ":")) :=
  ⟨by decide,
    op_urls ⟨"http://h", []⟩ "k" "ns" none (fun s => some s) "v" "v" "v" (by decide) rfl⟩

/-- C8: when any merged header has a syntactically invalid name, every
operation returns the configuration error, and it does so for every
transport and state — the result does not depend on the transport, so no
request reaches the wire. -/
theorem invalid_header_name_is_config_error {σ α β : Type}
    (c : UnstorageClient) (key base v : String) (topts : Option TransactionOptions)
    (dec : String → Option α) (parseDate : String → Option Int)
    (decKeys : String → Option (List String)) (enc : β → Option String) (val : β)
    (encBody : String) (henc : enc val = some encBody)
    (p : String × String) (hmem : p ∈ get_headers c topts)
    (hbad : isValidHeaderName p.1 = false) (t : Transport σ) (s : σ) :
    has_item c key topts t s = .error .config ∧
    get_item c key topts t s = .error .config ∧
    get_item_json dec c key topts t s = .error .config ∧
    get_item_raw c key topts t s = .error .config ∧
    get_meta parseDate c key topts t s = .error .config ∧
    set_item c key v topts t s = .error .config ∧
    set_item_raw c key v topts t s = .error .config ∧
    set_item_json enc c key val topts t s = .error .config ∧
    remove_item c key topts t s = .error .config ∧
    get_keys decKeys c base topts t s = .error .config ∧
    clear c base topts t s = .error .config := by
  have hb : ∀ req, addHeadersList (get_headers c topts) req = .error .config :=
    fun req => addHeadersList_error _ _ ⟨p, hmem, hbad⟩
  have hmemraw : p ∈ hmInsert (get_headers c topts) "accept" "application/octet-stream" := by
    refine mem_hmInsert_of_ne _ _ _ _ hmem ?_
    intro hpk
    have hvalid : isValidHeaderName "accept" = true := by decide
    rw [hpk, hvalid] at hbad
    exact Bool.noConfusion hbad
  have hbraw : ∀ req,
      addHeadersList (hmInsert (get_headers c topts) "accept" "application/octet-stream") req
        = .error .config :=
    fun req => addHeadersList_error _ _ ⟨p, hmemraw, hbad⟩
  refine ⟨?_, ?_, ?_, ?_, ?_, ?_, ?_, ?_, ?_, ?_, ?_⟩
  · simp [has_item, build_has_item, add_headers_to_request, hb, Bind.bind, Except.bind]
  · simp [get_item, build_get_item, add_headers_to_request, hb, Bind.bind, Except.bind]
  · simp [get_item_json, build_get_item_json, add_headers_to_request, hb, Bind.bind, Except.bind]
  · simp [get_item_raw, build_get_item_raw, hbraw, Bind.bind, Except.bind]
  · simp [get_meta, build_get_meta, add_headers_to_request, hb, Bind.bind, Except.bind]
  · simp [set_item, build_set_item, add_headers_to_request, hb, Bind.bind, Except.bind]
  · simp [set_item_raw, build_set_item_raw, add_headers_to_request, hb, Bind.bind, Except.bind]
  · simp [set_item_json, build_set_item_json, henc, add_headers_to_request, hb, Bind.bind,
      Except.bind]
  · simp [remove_item, build_remove_item, add_headers_to_request, hb, Bind.bind, Except.bind]
  · simp [get_keys, build_get_keys, add_headers_to_request, hb, Bind.bind, Except.bind]
  · simp [clear, build_clear, add_headers_to_request, hb, Bind.bind, Except.bind]

/-- Witness for C8: a default header whose name contains a space. -/
theorem invalid_header_name_is_config_error_witness :
    ("bad name", "v") ∈ get_headers ⟨"http://h", [("bad name", "v")]⟩ none ∧
    isValidHeaderName "bad name" = false ∧
    (has_item ⟨"http://h", [("bad name", "v")]⟩ "k" none
        (fun _ (s : Unit) => some (⟨200, [], ""⟩, s)) () = .error .config ∧
      get_item ⟨"http://h", [("bad name", "v")]⟩ "k" none
        (fun _ (s : Unit) => some (⟨200, [], ""⟩, s)) () = .error .config ∧
      get_item_json (fun (_ : String) => (none : Option String))
        ⟨"http://h", [("bad name", "v")]⟩ "k" none
        (fun _ (s : Unit) => some (⟨200, [], ""⟩, s)) () = .error .config ∧
      get_item_raw ⟨"http://h", [("bad name", "v")]⟩ "k" none
        (fun _ (s : Unit) => some (⟨200, [], ""⟩, s)) () = .error .config ∧
      get_meta (fun _ => none) ⟨"http://h", [("bad name", "v")]⟩ "k" none
        (fun _ (s : Unit) => some (⟨200, [], ""⟩, s)) () = .error .config ∧
      set_item ⟨"http://h", [("bad name", "v")]⟩ "k" "v" none
        (fun _ (s : Unit) => some (⟨200, [], ""⟩, s)) () = .error .config ∧
      set_item_raw ⟨"http://h", [("bad name", "v")]⟩ "k" "v" none
        (fun _ (s : Unit) => some (⟨200, [], ""⟩, s)) () = .error .config ∧
      set_item_json (fun (s : String) => some s) ⟨"http://h", [("bad name", "v")]⟩ "k" "v" none
        (fun _ (s : Unit) => some (⟨200, [], ""⟩, s)) () = .error .config ∧
      remove_item ⟨"http://h", [("bad name", "v")]⟩ "k" none
        (fun _ (s : Unit) => some (⟨200, [], ""⟩, s)) () = .error .config ∧
      get_keys (fun _ => none) ⟨"http://h", [("bad name", "v")]⟩ "ns" none
        (fun _ (s : Unit) => some (⟨200, [], ""⟩, s)) () = .error .config ∧
      clear ⟨"http://h", [("bad name", "v")]⟩ "ns" none
        (fun _ (s : Unit) => some (⟨200, [], ""⟩, s)) () = .error .config) :=
  ⟨by decide, by decide,
    invalid_header_name_is_config_error ⟨"http://h", [("bad name", "v")]⟩ "k" "ns" "v" none
      (fun _ => none) (fun _ => none) (fun _ => none) (fun (s : String) => some s) "v" "v" rfl
      ("bad name", "v") (by decide) (by decide)
      (fun _ (s : Unit) => some (⟨200, [], ""⟩, s)) ()⟩

/-- C9 (implicit): once any response is received, every write-style
operation (`set_item`, `set_item_raw`, `set_item_json`, `remove_item`,
`clear`) returns success, whatever the response's status code — a
non-2xx server response on a write is not reported. -/
theorem write_ops_ignore_status {σ β : Type} (c : UnstorageClient) (key base v : String)
    (topts : Option TransactionOptions) (enc : β → Option String) (val : β)
    (encBody : String) (henc : enc val = some encBody) (resp : Response) (s : σ)
    (hok : headersOk c topts = true) :
    set_item c key v topts (fun _ s => some (resp, s)) s = .ok ((), s) ∧
    set_item_raw c key v topts (fun _ s => some (resp, s)) s = .ok ((), s) ∧
    set_item_json enc c key val topts (fun _ s => some (resp, s)) s = .ok ((), s) ∧
    remove_item c key topts (fun _ s => some (resp, s)) s = .ok ((), s) ∧
    clear c base topts (fun _ s => some (resp, s)) s = .ok ((), s) := by
  refine ⟨?_, ?_, ?_, ?_, ?_⟩
  · rw [set_item_eq c key v topts _ s hok]
  · rw [set_item_raw_eq c key v topts _ s hok]
  · rw [set_item_json_eq enc c key val topts _ s encBody henc hok]
  · rw [remove_item_eq c key topts _ s hok]
  · rw [clear_eq c base topts _ s hok]

/-- Witness for C9 at a received 500 response. -/
theorem write_ops_ignore_status_witness :
    headersOk ⟨"http://h", []⟩ none = true ∧
    (set_item ⟨"http://h", []⟩ "k" "v" none
        (fun _ (s : Unit) => some (⟨500, [], ""⟩, s)) () = .ok ((), ()) ∧
      set_item_raw ⟨"http://h", []⟩ "k" "v" none
        (fun _ (s : Unit) => some (⟨500, [], ""⟩, s)) () = .ok ((), ()) ∧
      set_item_json (fun (s : String) => some s) ⟨"http://h", []⟩ "k" "v" none
        (fun _ (s : Unit) => some (⟨500, [], ""⟩, s)) () = .ok ((), ()) ∧
      remove_item ⟨"http://h", []⟩ "k" none
        (fun _ (s : Unit) => some (⟨500, [], ""⟩, s)) () = .ok ((), ()) ∧
      clear ⟨"http://h", []⟩ "ns" none
        (fun _ (s : Unit) => some (⟨500, [], ""⟩, s)) () = .ok ((), ())) :=
  ⟨by decide,
    write_ops_ignore_status ⟨"http://h", []⟩ "k" "ns" "v" none (fun (s : String) => some s)
      "v" "v" rfl ⟨500, [], ""⟩ () (by decide)⟩

/-- C10: no operation mutates the client: every call leaves the
configuration built by `new` unchanged (`&self` receivers; `get_headers`
merges into a clone of the default headers, which are what an
argument-less call still sees). -/
theorem client_config_immutable {σ : Type} (dec enc : String → Option String)
    (parseDate : String → Option Int) (decKeys : String → Option (List String))
    (c : UnstorageClient) (op : OpCall) (t : Transport σ) (s : σ) :
    (runOp dec enc parseDate decKeys c op t s).2 = c ∧
    get_headers c none = c.headers := by
  constructor
  · cases op <;> rfl
  · rfl

end Unstorage
